import Mathlib

/-!
# Verification of the `simple_json_server` dispatch core

Shallow embedding of the repository's dispatch contract:

* `Json`, `Json.serialize`, `Json.parse` — a model of the `serde_json` value
  type with its compact serializer and parser (an external collaborator of the
  repository; numbers are modelled as integers, strings escape `"` and `\`).
* `dispatch` — the `dispatch` method generated by the `#[actor]` attribute
  (`actor_attribute_macro/src/lib.rs`, lines 46–127).
* `handleHttpRequest` — `simple_json_server/src/lib.rs::handle_http_request`.
* `wsHandleText`, `wsSessionTrace` — `handle_websocket_connection`.
* `loadServerConfig`, `startHttpServerWithTls` — `tls.rs::load_server_config`
  and `lib.rs::start_http_server_with_tls`.
-/

/-- Model of `serde_json::Value`.  Numbers are restricted to integers (the
repository's dispatch logic never inspects numeric values, so the float
variants of `serde_json` are irrelevant to the claims). -/
inductive Json where
  | null : Json
  | bool (b : Bool) : Json
  | num (n : Int) : Json
  | str (s : String) : Json
  | arr (xs : List Json) : Json
  | obj (kvs : List (String × Json)) : Json

/-- Decimal digit to character. -/
def digitToChar : Nat → Char
  | 0 => '0'
  | 1 => '1'
  | 2 => '2'
  | 3 => '3'
  | 4 => '4'
  | 5 => '5'
  | 6 => '6'
  | 7 => '7'
  | 8 => '8'
  | _ => '9'

/-- Character to decimal digit, `none` for non-digits. -/
def charToDigit (c : Char) : Option Nat :=
  if c = '0' then some 0
  else if c = '1' then some 1
  else if c = '2' then some 2
  else if c = '3' then some 3
  else if c = '4' then some 4
  else if c = '5' then some 5
  else if c = '6' then some 6
  else if c = '7' then some 7
  else if c = '8' then some 8
  else if c = '9' then some 9
  else none

def isDigitCh (c : Char) : Bool := (charToDigit c).isSome

/-- Fuel-indexed decimal-digit expansion, most significant digit first. -/
def natCharsF : Nat → Nat → List Char
  | 0, _ => []
  | fuel + 1, n =>
    if n < 10 then [digitToChar n]
    else natCharsF fuel (n / 10) ++ [digitToChar (n % 10)]

/-- Decimal digits of a natural number, most significant first. -/
def natToChars (n : Nat) : List Char := natCharsF (n + 1) n

/-- Decimal representation of an integer, as characters. -/
def intChars (n : Int) : List Char :=
  if n < 0 then '-' :: natToChars n.natAbs else natToChars n.toNat

/-- JSON string escaping of one character (the model escapes `"` and `\`). -/
def escChar (c : Char) : List Char :=
  if c = '"' then ['\\', '"']
  else if c = '\\' then ['\\', '\\']
  else [c]

/-- JSON string escaping of a character list. -/
def escList : List Char → List Char
  | [] => []
  | c :: l => escChar c ++ escList l

/-- The keyword `null`, as characters. -/
def nullChars : List Char := ['n', 'u', 'l', 'l']

/-- The keyword `true`, as characters. -/
def trueChars : List Char := ['t', 'r', 'u', 'e']

/-- The keyword `false`, as characters. -/
def falseChars : List Char := ['f', 'a', 'l', 's', 'e']

mutual

/-- Compact serialization of a JSON value, as characters: the model of
`serde_json::Value::to_string` / `serde_json::to_string`. -/
def sVal : Json → List Char
  | .null => nullChars
  | .bool b => cond b trueChars falseChars
  | .num n => intChars n
  | .str s => '"' :: (escList s.data ++ ['"'])
  | .arr vs => '[' :: sItems vs
  | .obj kvs => '\x7b' :: sFields kvs

/-- Comma-separated serialization of array elements, closed by `]`. -/
def sItems : List Json → List Char
  | [] => [']']
  | [v] => sVal v ++ [']']
  | v :: vs => sVal v ++ ',' :: sItems vs

/-- Comma-separated serialization of object fields, closed by the closing
brace. -/
def sFields : List (String × Json) → List Char
  | [] => ['\x7d']
  | [(k, v)] => ('"' :: (escList k.data ++ ['"', ':'])) ++ (sVal v ++ ['\x7d'])
  | (k, v) :: kvs => ('"' :: (escList k.data ++ ['"', ':'])) ++ (sVal v ++ ',' :: sFields kvs)

end

/-- `serde_json` compact serialization of a JSON value, as a string. -/
def Json.serialize (v : Json) : String := String.mk (sVal v)

/-- Split the longest leading run of decimal digits. -/
def takeDigits : List Char → List Char × List Char
  | [] => ([], [])
  | c :: cs =>
    if isDigitCh c then
      let p := takeDigits cs
      (c :: p.1, p.2)
    else ([], c :: cs)

/-- Numeric value of a digit character (0 for non-digits). -/
def digitVal (c : Char) : Nat := (charToDigit c).getD 0

/-- Numeric value of a list of digit characters. -/
def digitsVal (ds : List Char) : Nat := ds.foldl (fun a c => a * 10 + digitVal c) 0

/-- Unescape the character following a backslash inside a JSON string. -/
def unescChar (c : Char) : Option Char :=
  if c = '"' then some '"'
  else if c = '\\' then some '\\'
  else none

/-- Parse the body of a JSON string after the opening quote, up to and
including the closing quote; returns the decoded characters and the rest. -/
def parseStrChars : List Char → Except String (List Char × List Char)
  | [] => .error "unterminated string"
  | c :: rest =>
    if c = '"' then .ok ([], rest)
    else if c = '\\' then
      match rest with
      | [] => .error "unterminated escape"
      | d :: rest2 =>
        match unescChar d with
        | some u => (parseStrChars rest2).map (fun p => (u :: p.1, p.2))
        | none => .error "invalid escape"
    else (parseStrChars rest).map (fun p => (c :: p.1, p.2))

mutual

/-- Recursive-descent JSON value parser (fuel-indexed): the model of
`serde_json::from_str::<serde_json::Value>` on compact JSON text. -/
def parseVal : Nat → List Char → Except String (Json × List Char)
  | 0, _ => .error "recursion depth exceeded"
  | _ + 1, [] => .error "unexpected end of input"
  | fuel + 1, c :: cs =>
    if isDigitCh c then
      let p := takeDigits (c :: cs)
      .ok (.num (digitsVal p.1 : Int), p.2)
    else if c = '-' then
      let p := takeDigits cs
      if p.1 = [] then .error "invalid number"
      else .ok (.num (-(digitsVal p.1 : Int)), p.2)
    else if c = '"' then
      (parseStrChars cs).map (fun p => (.str (String.mk p.1), p.2))
    else if c = 'n' then
      match cs with
      | 'u' :: 'l' :: 'l' :: r => .ok (.null, r)
      | _ => .error "invalid literal"
    else if c = 't' then
      match cs with
      | 'r' :: 'u' :: 'e' :: r => .ok (.bool true, r)
      | _ => .error "invalid literal"
    else if c = 'f' then
      match cs with
      | 'a' :: 'l' :: 's' :: 'e' :: r => .ok (.bool false, r)
      | _ => .error "invalid literal"
    else if c = '[' then
      if cs.head? = some ']' then .ok (.arr [], cs.tail)
      else (parseItems fuel cs).map (fun p => (.arr p.1, p.2))
    else if c = '\x7b' then
      if cs.head? = some '\x7d' then .ok (.obj [], cs.tail)
      else (parseFields fuel cs).map (fun p => (.obj p.1, p.2))
    else .error "unexpected character"

/-- Parse one or more comma-separated array elements, up to and including the
closing `]`. -/
def parseItems : Nat → List Char → Except String (List Json × List Char)
  | 0, _ => .error "recursion depth exceeded"
  | fuel + 1, cs =>
    match parseVal fuel cs with
    | .error e => .error e
    | .ok (v, r) =>
      match r with
      | ',' :: r2 => (parseItems fuel r2).map (fun p => (v :: p.1, p.2))
      | ']' :: r2 => .ok ([v], r2)
      | _ => .error "expected comma or closing bracket"

/-- Parse one or more comma-separated object fields, up to and including the
closing brace. -/
def parseFields : Nat → List Char → Except String (List (String × Json) × List Char)
  | 0, _ => .error "recursion depth exceeded"
  | fuel + 1, cs =>
    match cs with
    | '"' :: cs2 =>
      match parseStrChars cs2 with
      | .error e => .error e
      | .ok (k, r) =>
        match r with
        | ':' :: r2 =>
          match parseVal fuel r2 with
          | .error e => .error e
          | .ok (v, r3) =>
            match r3 with
            | ',' :: r4 => (parseFields fuel r4).map (fun p => ((String.mk k, v) :: p.1, p.2))
            | '\x7d' :: r4 => .ok ([(String.mk k, v)], r4)
            | _ => .error "expected comma or closing brace"
        | _ => .error "expected colon"
    | _ => .error "key must be a string"

end

/-- `serde_json::from_str::<serde_json::Value>`: parse a whole string as one
JSON value, rejecting trailing characters. -/
def Json.parse (s : String) : Except String Json :=
  match parseVal (2 * s.data.length + 2) s.data with
  | .error e => .error e
  | .ok (v, []) => .ok v
  | .ok (_, _ :: _) => .error "trailing characters"

example : Json.parse "null" = .ok .null := by rfl
example : Json.parse "\x7b\x7d" = .ok (.obj []) := by rfl
example : Json.parse "\x7binvalid" = .error "key must be a string" := by rfl
example : Json.parse "[1,-25,\"a\"]" =
    .ok (.arr [.num 1, .num (-25), .str "a"]) := by rfl
example : Json.parse "\x7b\"a\":5,\"b\":3\x7d" =
    .ok (.obj [("a", .num 5), ("b", .num 3)]) := by rfl
example : (Json.obj [("a", .num 5)]).serialize = "\x7b\"a\":5\x7d" := by rfl

/-! ## The `#[actor]` macro's generated dispatch

`actor_attribute_macro/src/lib.rs`.  The macro walks the items of the `impl`
block, keeps exactly the methods that are public and async
(`is_public_async_method`, lines 140–148), generates a message struct per kept
method (an empty struct when the method declares no parameters, lines 46–66),
and emits one dispatch arm per kept method (lines 76–91) inside the generated
`dispatch` (lines 105–124). -/

/-- JSON-encode a plain string: `serde_json::to_string` applied to a Rust
`String`, which always succeeds (the `unwrap_or_else` fallbacks in the
generated code are dead for string payloads). -/
def jsonEncodeStr (s : String) : String := Json.serialize (Json.str s)

/-- `serde_json::Value::get(key)` on the model: first field with that key. -/
def getField (j : Json) (key : String) : Option Json :=
  match j with
  | .obj kvs =>
    match kvs.find? (fun kv => kv.1 == key) with
    | some kv => some kv.2
    | none => none
  | _ => none

/-- `serde_json::Value::as_str`. -/
def asStr : Json → Option String
  | .str s => some s
  | _ => none

/-- Modelled from the spec: the derived `serde::Deserialize` of the empty
message struct the macro generates for a method with no parameters (external
`serde` behavior; spec §4.2: "Methods that declare no parameters treat `{}`
as a valid (empty) parameter object").  Any JSON object deserializes to the
empty struct; any non-object value is a type error. -/
def emptyStructFromValue (structName : String) : Json → Except String Unit
  | .obj _ => .ok ()
  | _ => .error ("invalid type, expected struct " ++ structName)

/-- Parameter handling of one actor method, as the macro sees it:
either the method declares no parameters (the macro then generates an empty
message struct, lines 60–66 — its deserializer is fixed), or it declares
parameters with a serde-derived deserializer for the generated message struct
(lines 46–59, external `serde` code, abstracted as `fromValue`).
`call`/the result of `run` bundle "invoke the method, then
`serde_json::to_string(&result)`": `.ok j` means serialization produced the
JSON text of `j`; `.error e` means `to_string` failed with message `e`. -/
inductive ParamsSpec where
  | noParams (run : Except String Json) : ParamsSpec
  | withParams (P : Type) (fromValue : Json → Except String P)
      (call : P → Except String Json) : ParamsSpec

/-- One `fn` item of the `impl` block the `#[actor]` attribute is placed on:
its name, its visibility and asyncness (the two flags
`is_public_async_method` inspects), and its parameter/result behavior. -/
structure MethodModel where
  name : String
  isPub : Bool
  isAsync : Bool
  spec : ParamsSpec

/-- `serde_json::to_string(&result)` step of a dispatch arm (lines 81–85). -/
def serializeOutcome (methodName : String) : Except String Json → String
  | .ok j => Json.serialize j
  | .error e => jsonEncodeStr ("Failed to serialize result for " ++ methodName ++ ": " ++ e)

/-- Body of the generated dispatch arm for one method (lines 76–91):
deserialize the parsed params into the message struct, invoke, serialize. -/
def armExec (m : MethodModel) (params : Json) : String :=
  match m.spec with
  | .noParams run =>
    match emptyStructFromValue (m.name ++ "Message") params with
    | .ok () => serializeOutcome m.name run
    | .error e =>
      jsonEncodeStr ("Failed to deserialize parameters for " ++ m.name ++ ": " ++ e)
  | .withParams _ fromValue call =>
    match fromValue params with
    | .ok p => serializeOutcome m.name (call p)
    | .error e =>
      jsonEncodeStr ("Failed to deserialize parameters for " ++ m.name ++ ": " ++ e)

/-- The macro's registration filter (lines 30–96): an arm is generated exactly
for the items satisfying `is_public_async_method` (lines 140–148). -/
def registeredMethods (items : List MethodModel) : List MethodModel :=
  items.filter (fun m => m.isPub && m.isAsync)

/-- The generated `dispatch` after the JSON payload has been parsed
(lines 119–123): match the method name against the generated arms in item
order; fall through to the `Unknown method` reply. -/
def dispatchParsed (items : List MethodModel) (methodName : String) (params : Json) : String :=
  match (registeredMethods items).find? (fun m => m.name == methodName) with
  | some m => armExec m params
  | none => jsonEncodeStr ("Unknown method: " ++ methodName)

/-- The generated `dispatch` (lines 105–124): parse the incoming JSON message
first (lines 111–115); on failure reply with the encoded parse error, else
dispatch on the method name. -/
def dispatch (items : List MethodModel) (methodName : String) (msg : String) : String :=
  match Json.parse msg with
  | .ok v => dispatchParsed items methodName v
  | .error e => jsonEncodeStr ("Failed to parse JSON: " ++ e)

/-! ### The `TestActor` of `simple_json_server/src/test_actor.rs`,
with `counter = 0` as built by `TestActor::new()` (used as concrete witness
material, mirroring the crate's own tests). -/

/-- Derived `Deserialize` of `AddMessage { a: i32, b: i32 }` (model). -/
def fromValueAdd (j : Json) : Except String (Int × Int) :=
  match getField j "a", getField j "b" with
  | some (.num a), some (.num b) => .ok (a, b)
  | _, _ => .error "missing or ill-typed field"

/-- Derived `Deserialize` of `GreetMessage { name: String }` (model). -/
def fromValueGreet (j : Json) : Except String String :=
  match getField j "name" with
  | some (.str s) => .ok s
  | _ => .error "missing or ill-typed field"

/-- `pub async fn add(&self, a: i32, b: i32) -> i32`. -/
def addMethod : MethodModel :=
  { name := "add", isPub := true, isAsync := true,
    spec := .withParams (Int × Int) fromValueAdd (fun p => .ok (.num (p.1 + p.2))) }

/-- `pub async fn get_counter(&self) -> i32` on `TestActor::new()`. -/
def getCounterMethod : MethodModel :=
  { name := "get_counter", isPub := true, isAsync := true,
    spec := .noParams (.ok (.num 0)) }

/-- `pub async fn greet(&self, name: String) -> String`. -/
def greetMethod : MethodModel :=
  { name := "greet", isPub := true, isAsync := true,
    spec := .withParams String fromValueGreet
      (fun s => .ok (.str ("Hello, " ++ s ++ "!"))) }

/-- `pub async fn no_params(&self) -> String`. -/
def noParamsMethod : MethodModel :=
  { name := "no_params", isPub := true, isAsync := true,
    spec := .noParams (.ok (.str "No parameters needed")) }

/-- `async fn private_method(&self)` — not `pub`, so never registered; its
body is `unreachable!` in the source, modelled by an arbitrary result. -/
def privateMethod : MethodModel :=
  { name := "private_method", isPub := false, isAsync := true,
    spec := .noParams (.ok (.str "unreachable")) }

/-- `pub fn sync_method(&self)` — not async, so never registered. -/
def syncMethod : MethodModel :=
  { name := "sync_method", isPub := true, isAsync := false,
    spec := .noParams (.ok (.str "unreachable")) }

/-- The items of the `#[actor] impl TestActor` block, in source order. -/
def testActorItems : List MethodModel :=
  [addMethod, getCounterMethod, greetMethod, noParamsMethod, privateMethod, syncMethod]

example : dispatch testActorItems "add" "\x7b\"a\":5,\"b\":3\x7d" = "8" := by rfl
example : dispatch testActorItems "get_counter" "\x7b\x7d" = "0" := by rfl
example : dispatch testActorItems "greet" "\x7b\"name\":\"World\"\x7d" =
    "\"Hello, World!\"" := by rfl
example : dispatch testActorItems "no_params" "\x7b\x7d" =
    "\"No parameters needed\"" := by rfl
example : dispatch testActorItems "unknown" "\x7b\x7d" =
    "\"Unknown method: unknown\"" := by rfl
example : dispatch testActorItems "invalid" "\x7b\"invalid\": json" =
    "\"Failed to parse JSON: unexpected character\"" := by rfl
example : dispatch testActorItems "private_method" "\x7b\x7d" =
    "\"Unknown method: private_method\"" := by rfl
example : dispatch testActorItems "sync_method" "\x7b\x7d" =
    "\"Unknown method: sync_method\"" := by rfl

/-! ## The HTTP adapter — `simple_json_server/src/lib.rs::handle_http_request`
(lines 239–302).  The hyper body collection and `std::str::from_utf8` are
external library calls; their joint outcome is the model's request-body
field. -/

/-- Outcome of reading the request body (`BodyExt::collect` then
`str::from_utf8`, lines 250–266). -/
inductive BodyOutcome where
  | ok (s : String) : BodyOutcome
  | invalidUtf8 : BodyOutcome
  | readFailed : BodyOutcome

/-- An HTTP request as `handle_http_request` observes it. -/
structure HttpReq where
  method : String
  path : String
  body : BodyOutcome

/-- An HTTP response as `handle_http_request` builds it. -/
structure HttpResp where
  status : Nat
  headers : List (String × String)
  body : String

/-- `str::trim_start_matches('/')`: drop every leading slash (line 271). -/
def stripLeadingSlashes (s : String) : String :=
  String.mk (s.data.dropWhile (fun c => c = '/'))

/-- `handle_http_request` (lines 239–302): read the body first (400 on a read
or UTF-8 failure), then branch on the HTTP verb: POST dispatches and always
answers 200; OPTIONS answers the CORS preflight; every other verb gets 405. -/
def handleHttpRequest (d : String → String → String) (req : HttpReq) : HttpResp :=
  match req.body with
  | .invalidUtf8 => { status := 400, headers := [], body := "Invalid UTF-8 in request body" }
  | .readFailed => { status := 400, headers := [], body := "Failed to read request body" }
  | .ok bodyStr =>
    if req.method = "POST" then
      { status := 200,
        headers := [("Content-Type", "application/json"),
                    ("Access-Control-Allow-Origin", "*"),
                    ("Access-Control-Allow-Methods", "POST, OPTIONS"),
                    ("Access-Control-Allow-Headers", "Content-Type")],
        body := d (stripLeadingSlashes req.path) bodyStr }
    else if req.method = "OPTIONS" then
      { status := 200,
        headers := [("Access-Control-Allow-Origin", "*"),
                    ("Access-Control-Allow-Methods", "POST, OPTIONS"),
                    ("Access-Control-Allow-Headers", "Content-Type"),
                    ("Content-Length", "0")],
        body := "" }
    else
      { status := 405,
        headers := [("Content-Type", "text/plain"),
                    ("Access-Control-Allow-Origin", "*")],
        body := "Method Not Allowed" }

example :
    (handleHttpRequest (dispatch testActorItems)
      { method := "POST", path := "/add", body := .ok "\x7b\"a\":10,\"b\":5\x7d" }).body
      = "15" := by rfl

example :
    (handleHttpRequest (dispatch testActorItems)
      { method := "GET", path := "/add", body := .ok "" }).status = 405 := by rfl

/-! ## The WebSocket adapter —
`simple_json_server/src/lib.rs::handle_websocket_connection` (lines 341–403). -/

/-- The error object the adapter sends when the envelope is malformed
(lines 370–379), serialized exactly as `serde_json::json!` + `to_string`
produce it. -/
def wsInvalidFormatReply : String :=
  Json.serialize (.obj [("error",
    .str "Invalid message format. Expected \x7b\"method\": \"method_name\", \"params\": \x7b...\x7d\x7d")])

/-- Reply of the adapter to one inbound text frame (lines 354–391): parse the
frame as JSON; on success require a string `method` field and a `params`
field, forward `method` and `params.to_string()` to `dispatch`, and reply
with its return; on a missing field reply with the fixed error object; on a
parse failure reply with the parse-error object. -/
def wsHandleText (d : String → String → String) (text : String) : String :=
  match Json.parse text with
  | .ok json =>
    match (getField json "method").bind asStr, getField json "params" with
    | some method, some params => d method (Json.serialize params)
    | _, _ => wsInvalidFormatReply
  | .error e =>
    Json.serialize (.obj [("error", .str ("JSON parse error: " ++ e))])

/-- One inbound WebSocket frame as the adapter's `match` sees it
(`Message::Text`, `Message::Close`, everything else ignored). -/
inductive WsFrame where
  | text (t : String) : WsFrame
  | close : WsFrame
  | other : WsFrame

/-- One observable event of a WebSocket session: a frame is taken off the
socket, or a reply is written to it. -/
inductive WsEvent where
  | recv (f : WsFrame) : WsEvent
  | send (r : String) : WsEvent

/-- The event trace of `handle_websocket_connection`'s receive loop
(lines 352–400) on a given inbound frame sequence: frames are taken one at a
time; a text frame is fully processed and its reply sent before the next
frame is taken; a close frame ends the loop; binary/ping/pong are ignored.
Replies are modelled as sent successfully (a failed send only ends the loop
earlier). -/
def wsSessionTrace (d : String → String → String) : List WsFrame → List WsEvent
  | [] => []
  | .text t :: rest => .recv (.text t) :: .send (wsHandleText d t) :: wsSessionTrace d rest
  | .close :: _ => [.recv .close]
  | .other :: rest => .recv .other :: wsSessionTrace d rest

example :
    wsHandleText (dispatch testActorItems) "\x7b\"method\":\"add\",\"params\":\x7b\"a\":5,\"b\":3\x7d\x7d"
      = "8" := by rfl

example :
    wsHandleText (dispatch testActorItems) "\x7b\"params\":\x7b\x7d\x7d"
      = wsInvalidFormatReply := by rfl

/-! ## TLS loading and server startup —
`simple_json_server/src/tls.rs::load_server_config` (lines 28–67) and
`simple_json_server/src/lib.rs::start_http_server_with_tls` (lines 406–449).
File reads, PEM parsing and the rustls builder are external library calls;
their outcomes are the model's inputs, in the order the source performs
them. -/

/-- Outcomes of the external calls `load_server_config` makes, in source
order: read the certificate file, collect the certificates, read the key
file, collect the PKCS8 private keys, and build the rustls server config
with the first key (`with_single_cert`). -/
structure TlsEnv where
  certData : Except String Unit
  certsParsed : Except String (List Nat)
  keyData : Except String Unit
  keysParsed : Except String (List Nat)
  singleCert : Except String Unit

/-- `TlsConfig::load_server_config` (lines 28–67): propagate each external
failure with `?`; after collecting the keys, fail with `"No private key
found"` when the list is empty; otherwise build the server config. -/
def loadServerConfig (env : TlsEnv) : Except String Unit := do
  let _ ← env.certData
  let _ ← env.certsParsed
  let _ ← env.keyData
  let keys ← env.keysParsed
  if keys.isEmpty then
    Except.error "No private key found"
  else do
    let _ ← env.singleCert
    Except.ok ()

/-- How a spawned server task ends its startup phase: it reaches the accept
loop (and may accept connections), it panics, or it logs an error message
and returns without ever accepting a connection. -/
inductive ServerStartOutcome where
  | acceptLoop : ServerStartOutcome
  | panicked (msg : String) : ServerStartOutcome
  | logAndReturn (msg : String) : ServerStartOutcome

/-- `start_http_server_with_tls` (lines 406–449): load the TLS config first;
on failure `log::error!` and return — the accept loop is never entered and
no connection-level handling runs.  On success bind the listener (`unwrap`
panics on a bind failure, line 414) and enter the accept loop. -/
def startHttpServerWithTls (env : TlsEnv) (bindResult : Except String Unit) : ServerStartOutcome :=
  match loadServerConfig env with
  | .error e => .logAndReturn ("Failed to load TLS configuration: " ++ e)
  | .ok _ =>
    match bindResult with
    | .error e => .panicked e
    | .ok _ => .acceptLoop

/-- Whether a startup outcome stops the process (the strongest stop the model
expresses: a panic; reaching the accept loop or returning from the task
leaves the process running). -/
def stopsProcess : ServerStartOutcome → Bool
  | .panicked _ => true
  | _ => false

/-- Whether a startup outcome ever accepts a connection. -/
def reachesAcceptLoop : ServerStartOutcome → Bool
  | .acceptLoop => true
  | _ => false

/-- A `TlsEnv` whose reads succeed but whose key file contains zero PKCS8
private keys. -/
def noKeyEnv : TlsEnv :=
  { certData := .ok (), certsParsed := .ok [1], keyData := .ok (),
    keysParsed := .ok [], singleCert := .ok () }

example : loadServerConfig noKeyEnv = .error "No private key found" := by rfl

/-! ## Groundwork: decimal digits -/

theorem isDigitCh_digitToChar (d : Nat) : isDigitCh (digitToChar d) = true := by
  unfold digitToChar
  split <;> rfl

theorem digitVal_digitToChar (d : Nat) (h : d < 10) : digitVal (digitToChar d) = d := by
  interval_cases d <;> rfl

theorem natCharsF_irrel (n : Nat) : ∀ f g : Nat, n < f → n < g →
    natCharsF f n = natCharsF g n := by
  induction n using Nat.strongRecOn with
  | ind n ih =>
    intro f g hf hg
    match f, g with
    | f + 1, g + 1 =>
      by_cases h : n < 10
      · simp [natCharsF, h]
      · have hd : n / 10 < n := Nat.div_lt_self (by omega) (by omega)
        simp only [natCharsF, if_neg h]
        rw [ih (n / 10) hd f g (by omega) (by omega)]

theorem natToChars_eq (n : Nat) :
    natToChars n = if n < 10 then [digitToChar n]
      else natToChars (n / 10) ++ [digitToChar (n % 10)] := by
  by_cases h : n < 10
  · simp [natToChars, natCharsF, h]
  · have hd : n / 10 < n := Nat.div_lt_self (by omega) (by omega)
    simp only [natToChars]
    rw [show natCharsF (n + 1) n
        = if n < 10 then [digitToChar n]
          else natCharsF n (n / 10) ++ [digitToChar (n % 10)] from rfl]
    rw [if_neg h, if_neg h]
    congr 1
    exact natCharsF_irrel (n / 10) n (n / 10 + 1) (by omega) (by omega)

theorem natToChars_ne_nil (n : Nat) : natToChars n ≠ [] := by
  rw [natToChars_eq]
  by_cases h : n < 10 <;> simp [h]

theorem natToChars_all_digits (n : Nat) : ∀ c ∈ natToChars n, isDigitCh c = true := by
  induction n using Nat.strongRecOn with
  | ind n ih =>
    rw [natToChars_eq]
    by_cases h : n < 10
    · simp only [if_pos h, List.mem_singleton]
      intro c hc
      rw [hc]
      exact isDigitCh_digitToChar n
    · have hd : n / 10 < n := Nat.div_lt_self (by omega) (by omega)
      simp only [if_neg h, List.mem_append, List.mem_singleton]
      intro c hc
      rcases hc with hc | hc
      · exact ih (n / 10) hd c hc
      · rw [hc]
        exact isDigitCh_digitToChar (n % 10)

theorem digitsVal_append_digit (ds : List Char) (c : Char) :
    digitsVal (ds ++ [c]) = 10 * digitsVal ds + digitVal c := by
  simp [digitsVal, List.foldl_append]
  ring

theorem digitsVal_natToChars (n : Nat) : digitsVal (natToChars n) = n := by
  induction n using Nat.strongRecOn with
  | ind n ih =>
    rw [natToChars_eq]
    by_cases h : n < 10
    · simp only [if_pos h]
      show digitsVal [digitToChar n] = n
      simp [digitsVal, digitVal_digitToChar n h]
    · have hd : n / 10 < n := Nat.div_lt_self (by omega) (by omega)
      simp only [if_neg h, digitsVal_append_digit, ih (n / 10) hd,
        digitVal_digitToChar (n % 10) (by omega)]
      omega

/-- Exactness of the model's "no digit follows" side condition: the character
right after a serialized number must not extend the digit run. -/
def numTailOk : List Char → Bool
  | [] => true
  | c :: _ => !isDigitCh c

theorem takeDigits_append (ds rest : List Char)
    (hds : ∀ c ∈ ds, isDigitCh c = true) (hrest : numTailOk rest = true) :
    takeDigits (ds ++ rest) = (ds, rest) := by
  induction ds with
  | nil =>
    match rest with
    | [] => rfl
    | c :: r =>
      have : isDigitCh c = false := by
        have := hrest
        simp [numTailOk] at this
        simp [this]
      simp [takeDigits, this]
  | cons c ds ih =>
    have hc : isDigitCh c = true := hds c (by simp)
    have ih2 := ih (fun d hd => hds d (by simp [hd]))
    simp [takeDigits, hc, ih2]

/-! ## Groundwork: JSON strings -/

theorem stringMk_data (s : String) : String.mk s.data = s := rfl

theorem escList_append (a b : List Char) :
    escList (a ++ b) = escList a ++ escList b := by
  induction a with
  | nil => rfl
  | cons c a ih => simp [escList, ih]

theorem parseStrChars_quote (rest : List Char) :
    parseStrChars ('"' :: rest) = .ok ([], rest) := by
  rw [parseStrChars.eq_def]
  exact rfl

theorem parseStrChars_escq (rest : List Char) :
    parseStrChars ('\\' :: '"' :: rest)
      = (parseStrChars rest).map (fun p => ('"' :: p.1, p.2)) := by
  rw [parseStrChars.eq_def]
  exact rfl

theorem parseStrChars_escb (rest : List Char) :
    parseStrChars ('\\' :: '\\' :: rest)
      = (parseStrChars rest).map (fun p => ('\\' :: p.1, p.2)) := by
  rw [parseStrChars.eq_def]
  exact rfl

theorem parseStrChars_other (c : Char) (rest : List Char)
    (h1 : ¬c = '"') (h2 : ¬c = '\\') :
    parseStrChars (c :: rest)
      = (parseStrChars rest).map (fun p => (c :: p.1, p.2)) := by
  rw [parseStrChars.eq_def]
  simp only [if_neg h1, if_neg h2]

theorem parseStrChars_escList (l : List Char) : ∀ rest : List Char,
    parseStrChars (escList l ++ ('"' :: rest)) = .ok (l, rest) := by
  induction l with
  | nil =>
    intro rest
    simp only [escList, List.nil_append]
    exact parseStrChars_quote rest
  | cons c l ih =>
    intro rest
    by_cases hq : c = '"'
    · subst hq
      rw [show escList ('"' :: l) = '\\' :: '"' :: escList l from by
        simp [escList, escChar]]
      rw [List.cons_append, List.cons_append, parseStrChars_escq, ih rest]
      rfl
    · by_cases hb : c = '\\'
      · subst hb
        rw [show escList ('\\' :: l) = '\\' :: '\\' :: escList l from by
          simp [escList, escChar]]
        rw [List.cons_append, List.cons_append, parseStrChars_escb, ih rest]
        rfl
      · rw [show escList (c :: l) = c :: escList l from by
          simp [escList, escChar, hq, hb]]
        rw [List.cons_append, parseStrChars_other c _ hq hb, ih rest]
        rfl

/-! ## Groundwork: serializer output shape -/

theorem isDigitCh_ne (c : Char) (d : Char) (hc : isDigitCh c = true)
    (hd : isDigitCh d = false) : c ≠ d := by
  intro h
  rw [h, hd] at hc
  exact Bool.false_ne_true hc

theorem intChars_ne_nil (n : Int) : intChars n ≠ [] := by
  unfold intChars
  by_cases h : n < 0
  · simp [h]
  · simp [h, natToChars_ne_nil]

/-- Every serialized value starts with a character that is neither `]` nor
the closing brace nor a comma (used to drive the array/object branches of
the parser when the element list is nonempty). -/
theorem sVal_head (v : Json) : ∃ c cs, sVal v = c :: cs ∧
    c ≠ ']' ∧ c ≠ '\x7d' := by
  match v with
  | .null => exact ⟨'n', _, rfl, by decide, by decide⟩
  | .bool true => exact ⟨'t', _, rfl, by decide, by decide⟩
  | .bool false => exact ⟨'f', _, rfl, by decide, by decide⟩
  -- the keyword constants unfold definitionally in the three cases above
  | .str s => exact ⟨'"', _, rfl, by decide, by decide⟩
  | .arr vs => exact ⟨'[', _, rfl, by decide, by decide⟩
  | .obj kvs => exact ⟨'\x7b', _, rfl, by decide, by decide⟩
  | .num n =>
    show ∃ c cs, intChars n = c :: cs ∧ _
    unfold intChars
    by_cases h : n < 0
    · refine ⟨'-', natToChars n.natAbs, ?_, by decide, by decide⟩
      simp [h]
    · obtain ⟨c, cs, hc⟩ := List.exists_cons_of_ne_nil (natToChars_ne_nil n.toNat)
      have hdig : isDigitCh c = true := natToChars_all_digits n.toNat c (by rw [hc]; simp)
      exact ⟨c, cs, by simp [h, hc],
        isDigitCh_ne c ']' hdig (by rfl),
        isDigitCh_ne c '\x7d' hdig (by rfl)⟩

/-! ## Groundwork: fuel accounting for the roundtrip -/

mutual

/-- Fuel sufficient for `parseVal` to parse `sVal v`. -/
def fuelV : Json → Nat
  | .null => 1
  | .bool _ => 1
  | .num _ => 1
  | .str _ => 1
  | .arr vs => 1 + fuelL vs
  | .obj kvs => 1 + fuelF kvs

/-- Fuel sufficient for `parseItems` to parse `sItems vs`. -/
def fuelL : List Json → Nat
  | [] => 1
  | v :: vs => 1 + fuelV v + fuelL vs

/-- Fuel sufficient for `parseFields` to parse `sFields kvs`. -/
def fuelF : List (String × Json) → Nat
  | [] => 1
  | (_, v) :: kvs => 1 + fuelV v + fuelF kvs

end

theorem fuelV_pos (v : Json) : 1 ≤ fuelV v := by
  match v with
  | .null | .bool _ | .num _ | .str _ => simp [fuelV]
  | .arr vs => simp [fuelV]
  | .obj kvs => simp [fuelV]

/-! ## Groundwork: one-step reduction lemmas for the parser -/

theorem parseVal_null (fuel : Nat) (rest : List Char) :
    parseVal (fuel + 1) ('n' :: 'u' :: 'l' :: 'l' :: rest) = .ok (.null, rest) := by
  rw [parseVal.eq_def]
  exact rfl

theorem parseVal_true (fuel : Nat) (rest : List Char) :
    parseVal (fuel + 1) ('t' :: 'r' :: 'u' :: 'e' :: rest) = .ok (.bool true, rest) := by
  rw [parseVal.eq_def]
  exact rfl

theorem parseVal_false (fuel : Nat) (rest : List Char) :
    parseVal (fuel + 1) ('f' :: 'a' :: 'l' :: 's' :: 'e' :: rest) = .ok (.bool false, rest) := by
  rw [parseVal.eq_def]
  exact rfl

theorem parseVal_digit (fuel : Nat) (c : Char) (cs : List Char) (h : isDigitCh c = true) :
    parseVal (fuel + 1) (c :: cs)
      = .ok (.num (digitsVal (takeDigits (c :: cs)).1 : Int), (takeDigits (c :: cs)).2) := by
  rw [parseVal.eq_def]
  simp [h]

theorem parseVal_minus (fuel : Nat) (cs : List Char) :
    parseVal (fuel + 1) ('-' :: cs)
      = (if (takeDigits cs).1 = [] then .error "invalid number"
         else .ok (.num (-(digitsVal (takeDigits cs).1 : Int)), (takeDigits cs).2)) := by
  rw [parseVal.eq_def]
  exact rfl

theorem parseVal_quoteHead (fuel : Nat) (cs : List Char) :
    parseVal (fuel + 1) ('"' :: cs)
      = (parseStrChars cs).map (fun p => (.str (String.mk p.1), p.2)) := by
  rw [parseVal.eq_def]
  exact rfl

theorem parseVal_arrHead (fuel : Nat) (cs : List Char) :
    parseVal (fuel + 1) ('[' :: cs)
      = (if cs.head? = some ']' then .ok (.arr [], cs.tail)
         else (parseItems fuel cs).map (fun p => (.arr p.1, p.2))) := by
  rw [parseVal.eq_def]
  exact rfl

theorem parseVal_objHead (fuel : Nat) (cs : List Char) :
    parseVal (fuel + 1) ('\x7b' :: cs)
      = (if cs.head? = some '\x7d' then .ok (.obj [], cs.tail)
         else (parseFields fuel cs).map (fun p => (.obj p.1, p.2))) := by
  rw [parseVal.eq_def]
  exact rfl

theorem parseItems_comma (fuel : Nat) (cs : List Char) (v : Json) (r2 : List Char)
    (h : parseVal fuel cs = .ok (v, ',' :: r2)) :
    parseItems (fuel + 1) cs = (parseItems fuel r2).map (fun p => (v :: p.1, p.2)) := by
  rw [parseItems.eq_def]
  simp only [h]

theorem parseItems_close (fuel : Nat) (cs : List Char) (v : Json) (r2 : List Char)
    (h : parseVal fuel cs = .ok (v, ']' :: r2)) :
    parseItems (fuel + 1) cs = .ok ([v], r2) := by
  rw [parseItems.eq_def]
  simp only [h]

theorem parseFields_comma (fuel : Nat) (cs2 k r : List Char) (v : Json) (r4 : List Char)
    (hs : parseStrChars cs2 = .ok (k, ':' :: r))
    (hv : parseVal fuel r = .ok (v, ',' :: r4)) :
    parseFields (fuel + 1) ('"' :: cs2)
      = (parseFields fuel r4).map (fun p => ((String.mk k, v) :: p.1, p.2)) := by
  rw [parseFields.eq_def]
  simp only [hs, hv]

theorem parseFields_close (fuel : Nat) (cs2 k r : List Char) (v : Json) (r4 : List Char)
    (hs : parseStrChars cs2 = .ok (k, ':' :: r))
    (hv : parseVal fuel r = .ok (v, '\x7d' :: r4)) :
    parseFields (fuel + 1) ('"' :: cs2) = .ok ([(String.mk k, v)], r4) := by
  rw [parseFields.eq_def]
  simp only [hs, hv]

theorem fuelL_pos (vs : List Json) : 1 ≤ fuelL vs := by
  match vs with
  | [] => simp [fuelL]
  | v :: vs =>
    simp only [fuelL]
    omega

theorem fuelF_pos (kvs : List (String × Json)) : 1 ≤ fuelF kvs := by
  match kvs with
  | [] => simp [fuelF]
  | (k, v) :: kvs =>
    simp only [fuelF]
    omega

theorem parseVal_digit2 (fuel : Nat) (c : Char) (cs ds r : List Char)
    (h : isDigitCh c = true) (ht : takeDigits (c :: cs) = (ds, r)) :
    parseVal (fuel + 1) (c :: cs) = .ok (.num (digitsVal ds : Int), r) := by
  rw [parseVal_digit fuel c cs h, ht]

theorem parseVal_minus2 (fuel : Nat) (cs ds r : List Char)
    (ht : takeDigits cs = (ds, r)) (hne : ds ≠ []) :
    parseVal (fuel + 1) ('-' :: cs) = .ok (.num (-(digitsVal ds : Int)), r) := by
  rw [parseVal_minus, ht]
  simp [hne]

theorem sItems_head (v : Json) (vs : List Json) :
    ∃ c cs, sItems (v :: vs) = c :: cs ∧ c ≠ ']' ∧ c ≠ '\x7d' := by
  obtain ⟨c, cs0, hc, h1, h2⟩ := sVal_head v
  cases vs with
  | nil => exact ⟨c, cs0 ++ [']'], by simp [sItems, hc], h1, h2⟩
  | cons w vs' =>
    exact ⟨c, cs0 ++ ',' :: sItems (w :: vs'), by simp [sItems, hc], h1, h2⟩

theorem sFields_head (kv : String × Json) (kvs : List (String × Json)) :
    ∃ cs, sFields (kv :: kvs) = '"' :: cs := by
  obtain ⟨k, v⟩ := kv
  cases kvs with
  | nil => exact ⟨escList k.data ++ ['"', ':'] ++ (sVal v ++ ['\x7d']), by simp [sFields]⟩
  | cons kv2 kvs' =>
    exact ⟨escList k.data ++ ['"', ':'] ++ (sVal v ++ ',' :: sFields (kv2 :: kvs')),
      by simp [sFields]⟩

/-- Parsing inverts serialization, with the exact fuel accounting of the
recursive descent: the heart of the `from_str (to_string v) = v` identity. -/
theorem parse_sVal_round : ∀ fuel : Nat,
    (∀ v rest, fuelV v ≤ fuel → numTailOk rest = true →
      parseVal fuel (sVal v ++ rest) = .ok (v, rest)) ∧
    (∀ vs rest, vs ≠ [] → fuelL vs ≤ fuel →
      parseItems fuel (sItems vs ++ rest) = .ok (vs, rest)) ∧
    (∀ kvs rest, kvs ≠ [] → fuelF kvs ≤ fuel →
      parseFields fuel (sFields kvs ++ rest) = .ok (kvs, rest)) := by
  intro fuel
  induction fuel with
  | zero =>
    refine ⟨?_, ?_, ?_⟩
    · intro v rest hf _
      have := fuelV_pos v
      omega
    · intro vs rest _ hf
      have := fuelL_pos vs
      omega
    · intro kvs rest _ hf
      have := fuelF_pos kvs
      omega
  | succ fuel ih =>
    obtain ⟨ihV, ihL, ihF⟩ := ih
    refine ⟨?_, ?_, ?_⟩
    · intro v rest hf ht
      match v with
      | .null =>
        rw [show sVal .null ++ rest = 'n' :: 'u' :: 'l' :: 'l' :: rest from by
          simp [sVal, nullChars]]
        exact parseVal_null fuel rest
      | .bool true =>
        rw [show sVal (.bool true) ++ rest = 't' :: 'r' :: 'u' :: 'e' :: rest from by
          simp [sVal, trueChars]]
        exact parseVal_true fuel rest
      | .bool false =>
        rw [show sVal (.bool false) ++ rest = 'f' :: 'a' :: 'l' :: 's' :: 'e' :: rest from by
          simp [sVal, falseChars]]
        exact parseVal_false fuel rest
      | .str s =>
        rw [show sVal (.str s) ++ rest
            = '"' :: (escList s.data ++ ('"' :: rest)) from by simp [sVal]]
        rw [parseVal_quoteHead, parseStrChars_escList]
        rfl
      | .num n =>
        by_cases hneg : n < 0
        · rw [show sVal (.num n) ++ rest
              = '-' :: (natToChars n.natAbs ++ rest) from by simp [sVal, intChars, hneg]]
          rw [parseVal_minus2 fuel _ (natToChars n.natAbs) rest
            (takeDigits_append _ _ (natToChars_all_digits n.natAbs) ht)
            (natToChars_ne_nil n.natAbs)]
          rw [digitsVal_natToChars]
          have : -((n.natAbs : Nat) : Int) = n := by omega
          rw [this]
        · obtain ⟨c, cs, hc⟩ := List.exists_cons_of_ne_nil (natToChars_ne_nil n.toNat)
          have hdigs : ∀ d ∈ c :: cs, isDigitCh d = true := by
            rw [← hc]
            exact natToChars_all_digits n.toNat
          rw [show sVal (.num n) ++ rest = c :: (cs ++ rest) from by
            simp [sVal, intChars, hneg, hc]]
          have htd : takeDigits (c :: (cs ++ rest)) = (c :: cs, rest) := by
            rw [show c :: (cs ++ rest) = (c :: cs) ++ rest from by simp]
            exact takeDigits_append _ _ hdigs ht
          rw [parseVal_digit2 fuel c (cs ++ rest) (c :: cs) rest (hdigs c (by simp)) htd]
          rw [← hc, digitsVal_natToChars]
          have : ((n.toNat : Nat) : Int) = n := by omega
          rw [this]
      | .arr vs =>
        cases vs with
        | nil =>
          rw [show sVal (.arr []) ++ rest = '[' :: (']' :: rest) from by
            simp [sVal, sItems]]
          rw [parseVal_arrHead]
          simp
        | cons v vs' =>
          rw [show sVal (.arr (v :: vs')) ++ rest
              = '[' :: (sItems (v :: vs') ++ rest) from by simp [sVal]]
          rw [parseVal_arrHead]
          obtain ⟨c, cs0, hc, h1, h2⟩ := sItems_head v vs'
          have hcond : (sItems (v :: vs') ++ rest).head? = some c := by
            rw [hc]
            simp
          rw [if_neg (by rw [hcond]; simp [h1])]
          have harith : fuelL (v :: vs') ≤ fuel := by
            simp [fuelV] at hf
            omega
          rw [ihL (v :: vs') rest (by simp) harith]
          rfl
      | .obj kvs =>
        cases kvs with
        | nil =>
          rw [show sVal (.obj []) ++ rest = '\x7b' :: ('\x7d' :: rest) from by
            simp [sVal, sFields]]
          rw [parseVal_objHead]
          simp
        | cons kv kvs' =>
          rw [show sVal (.obj (kv :: kvs')) ++ rest
              = '\x7b' :: (sFields (kv :: kvs') ++ rest) from by simp [sVal]]
          rw [parseVal_objHead]
          obtain ⟨cs0, hc⟩ := sFields_head kv kvs'
          have hcond : (sFields (kv :: kvs') ++ rest).head? = some '"' := by
            rw [hc]
            simp
          rw [if_neg (by rw [hcond]; simp)]
          have harith : fuelF (kv :: kvs') ≤ fuel := by
            simp [fuelV] at hf
            omega
          rw [ihF (kv :: kvs') rest (by simp) harith]
          rfl
    · intro vs rest hne hf
      match vs with
      | [v] =>
        rw [show sItems [v] ++ rest = sVal v ++ (']' :: rest) from by simp [sItems]]
        have harith : fuelV v ≤ fuel := by
          simp [fuelL] at hf
          omega
        have hv := ihV v (']' :: rest) harith (by rfl)
        exact parseItems_close fuel _ v rest hv
      | v :: w :: vs'' =>
        rw [show sItems (v :: w :: vs'') ++ rest
            = sVal v ++ (',' :: (sItems (w :: vs'') ++ rest)) from by simp [sItems]]
        have harith : fuelV v ≤ fuel ∧ fuelL (w :: vs'') ≤ fuel := by
          simp only [fuelL] at hf ⊢
          omega
        have hv := ihV v (',' :: (sItems (w :: vs'') ++ rest)) harith.1 (by rfl)
        rw [parseItems_comma fuel _ v _ hv]
        rw [ihL (w :: vs'') rest (by simp) harith.2]
        rfl
    · intro kvs rest hne hf
      match kvs with
      | [(k, v)] =>
        rw [show sFields [(k, v)] ++ rest
            = '"' :: (escList k.data ++ ('"' :: (':' :: (sVal v ++ ('\x7d' :: rest)))))
            from by simp [sFields]]
        have harith : fuelV v ≤ fuel := by
          simp [fuelF] at hf
          omega
        have hv := ihV v ('\x7d' :: rest) harith (by rfl)
        have hs := parseStrChars_escList k.data (':' :: (sVal v ++ ('\x7d' :: rest)))
        exact parseFields_close fuel _ k.data _ v rest hs hv
      | (k, v) :: kv2 :: kvs'' =>
        rw [show sFields ((k, v) :: kv2 :: kvs'') ++ rest
            = '"' :: (escList k.data
                ++ ('"' :: (':' :: (sVal v ++ (',' :: (sFields (kv2 :: kvs'') ++ rest))))))
            from by simp [sFields]]
        have harith : fuelV v ≤ fuel ∧ fuelF (kv2 :: kvs'') ≤ fuel := by
          simp only [fuelF] at hf ⊢
          omega
        have hv := ihV v (',' :: (sFields (kv2 :: kvs'') ++ rest)) harith.1 (by rfl)
        have hs := parseStrChars_escList k.data
          (':' :: (sVal v ++ (',' :: (sFields (kv2 :: kvs'') ++ rest))))
        rw [parseFields_comma fuel _ k.data _ v _ hs hv]
        rw [ihF (kv2 :: kvs'') rest (by simp) harith.2]
        rfl

theorem fuel_le_twice_len : ∀ n : Nat,
    (∀ v : Json, sizeOf v ≤ n → fuelV v ≤ 2 * (sVal v).length) ∧
    (∀ vs : List Json, sizeOf vs ≤ n → fuelL vs ≤ 2 * (sItems vs).length) ∧
    (∀ kvs : List (String × Json), sizeOf kvs ≤ n → fuelF kvs ≤ 2 * (sFields kvs).length) := by
  intro n
  induction n with
  | zero =>
    refine ⟨?_, ?_, ?_⟩
    · intro v hv
      exfalso
      cases v <;> simp at hv
    · intro vs hv
      exfalso
      cases vs <;> simp at hv
    · intro kvs hv
      exfalso
      cases kvs <;> simp at hv
  | succ n ih =>
    obtain ⟨ihV, ihL, ihF⟩ := ih
    refine ⟨?_, ?_, ?_⟩
    · intro v hv
      match v with
      | .null => simp [fuelV, sVal, nullChars]
      | .bool b => cases b <;> simp [fuelV, sVal, trueChars, falseChars]
      | .num m =>
        have : 1 ≤ (intChars m).length := List.length_pos.mpr (intChars_ne_nil m)
        simp only [fuelV, sVal]
        omega
      | .str s =>
        simp only [fuelV, sVal, List.length_cons]
        omega
      | .arr vs =>
        have hs : sizeOf vs ≤ n := by
          simp at hv
          omega
        have := ihL vs hs
        simp only [fuelV, sVal, List.length_cons]
        omega
      | .obj kvs =>
        have hs : sizeOf kvs ≤ n := by
          simp at hv
          omega
        have := ihF kvs hs
        simp only [fuelV, sVal, List.length_cons]
        omega
    · intro vs hv
      match vs with
      | [] => simp [fuelL, sItems]
      | [v] =>
        have hs : sizeOf v ≤ n := by
          simp at hv
          omega
        have := ihV v hs
        simp only [fuelL, sItems, List.length_append, List.length_cons, List.length_nil]
        omega
      | v :: w :: vs'' =>
        have hs1 : sizeOf v ≤ n := by
          simp at hv
          omega
        have hs2 : sizeOf (w :: vs'') ≤ n := by
          simp at hv ⊢
          omega
        have h1 := ihV v hs1
        have h2 := ihL (w :: vs'') hs2
        simp only [fuelL, sItems, List.length_append, List.length_cons] at h2 ⊢
        omega
    · intro kvs hv
      match kvs with
      | [] => simp [fuelF, sFields]
      | [(k, v)] =>
        have hs : sizeOf v ≤ n := by
          simp at hv
          omega
        have := ihV v hs
        simp only [fuelF, sFields, List.length_append, List.length_cons, List.length_nil]
        omega
      | (k, v) :: kv2 :: kvs'' =>
        have hs1 : sizeOf v ≤ n := by
          simp at hv
          omega
        have hs2 : sizeOf (kv2 :: kvs'') ≤ n := by
          simp at hv ⊢
          omega
        have h1 := ihV v hs1
        have h2 := ihF (kv2 :: kvs'') hs2
        simp only [fuelF, sFields, List.length_append, List.length_cons] at h2 ⊢
        omega

/-- `serde_json::from_str` after `serde_json::to_string` is the identity on
JSON values (the algebraic identity behind the WebSocket adapter's use of
`params.to_string()`). -/
theorem Json.parse_serialize (v : Json) : Json.parse (Json.serialize v) = .ok v := by
  have hfuel : fuelV v ≤ 2 * (sVal v).length + 2 := by
    have := (fuel_le_twice_len (sizeOf v)).1 v (Nat.le_refl _)
    omega
  have hmain := (parse_sVal_round (2 * (sVal v).length + 2)).1 v [] hfuel (by rfl)
  rw [List.append_nil] at hmain
  show (match parseVal (2 * (Json.serialize v).data.length + 2) (Json.serialize v).data with
    | .error e => Except.error e
    | .ok (w, []) => Except.ok w
    | .ok (_, _ :: _) => Except.error "trailing characters") = Except.ok v
  rw [show (Json.serialize v).data = sVal v from rfl]
  rw [hmain]

/-! ## Groundwork: dispatch-level lemmas -/

theorem jsonEncodeStr_data (s : String) :
    (jsonEncodeStr s).data = '"' :: (escList s.data ++ ['"']) := by
  show (Json.serialize (.str s)).data = _
  rw [show (Json.serialize (.str s)).data = sVal (.str s) from rfl]
  simp [sVal]

/-- A `Failed to parse JSON` reply is never an `Unknown method` reply: the
two encoded strings differ at their first character. -/
theorem parseErr_ne_unknown (a b : String) :
    jsonEncodeStr ("Failed to parse JSON: " ++ a)
      ≠ jsonEncodeStr ("Unknown method: " ++ b) := by
  intro h
  have hd := congrArg String.data h
  rw [jsonEncodeStr_data, jsonEncodeStr_data, String.data_append, String.data_append,
    escList_append, escList_append] at hd
  rw [show escList "Failed to parse JSON: ".data
      = 'F' :: "ailed to parse JSON: ".data from by decide] at hd
  rw [show escList "Unknown method: ".data
      = 'U' :: "nknown method: ".data from by decide] at hd
  have h2 := congrArg (fun l => l.get? 1) hd
  simp at h2

/-- Every dispatch arm returns the serialization of some JSON value. -/
theorem serializeOutcome_serialize (name : String) (r : Except String Json) :
    ∃ j, serializeOutcome name r = Json.serialize j := by
  rcases r with e | j
  · exact ⟨.str ("Failed to serialize result for " ++ name ++ ": " ++ e), rfl⟩
  · exact ⟨j, rfl⟩

theorem armExec_serialize (m : MethodModel) (params : Json) :
    ∃ j, armExec m params = Json.serialize j := by
  rcases hs : m.spec with run | ⟨P, fromValue, call⟩
  · rcases he : emptyStructFromValue (m.name ++ "Message") params with e | u
    · exact ⟨.str ("Failed to deserialize parameters for " ++ m.name ++ ": " ++ e),
        by simp [armExec, hs, he, jsonEncodeStr]⟩
    · obtain ⟨j, hj⟩ := serializeOutcome_serialize m.name run
      exact ⟨j, by simp [armExec, hs, he, hj]⟩
  · rcases hf : fromValue params with e | p
    · exact ⟨.str ("Failed to deserialize parameters for " ++ m.name ++ ": " ++ e),
        by simp [armExec, hs, hf, jsonEncodeStr]⟩
    · obtain ⟨j, hj⟩ := serializeOutcome_serialize m.name (call p)
      exact ⟨j, by simp [armExec, hs, hf, hj]⟩

/-- The generated dispatch always returns the serialization of some JSON
value. -/
theorem dispatch_serialize (items : List MethodModel) (methodName msg : String) :
    ∃ j, dispatch items methodName msg = Json.serialize j := by
  rcases hp : Json.parse msg with e | v
  · exact ⟨.str ("Failed to parse JSON: " ++ e), by simp [dispatch, hp, jsonEncodeStr]⟩
  · rcases hf : (registeredMethods items).find? (fun m => m.name == methodName) with _ | mm
    · exact ⟨.str ("Unknown method: " ++ methodName),
        by simp [dispatch, hp, dispatchParsed, hf, jsonEncodeStr]⟩
    · obtain ⟨j, hj⟩ := armExec_serialize mm v
      exact ⟨j, by simp [dispatch, hp, dispatchParsed, hf, hj]⟩

/-- With pairwise-distinct method names, the generated match finds exactly the
registered method carrying the dispatched name. -/
theorem find_registered (items : List MethodModel) (m : MethodModel)
    (hm : m ∈ items) (hpub : m.isPub = true) (hasync : m.isAsync = true)
    (hdist : items.Pairwise (fun a b => a.name ≠ b.name)) :
    (registeredMethods items).find? (fun x => x.name == m.name) = some m := by
  induction items with
  | nil => cases hm
  | cons a rest ih =>
    rw [List.pairwise_cons] at hdist
    rcases List.mem_cons.mp hm with heq | hmem
    · subst heq
      unfold registeredMethods
      rw [List.filter_cons, if_pos (by rw [hpub, hasync]; rfl)]
      rw [List.find?_cons_of_pos _ (by simp)]
    · have hane : a.name ≠ m.name := hdist.1 m hmem
      have ihr := ih hmem hdist.2
      unfold registeredMethods at ihr ⊢
      rw [List.filter_cons]
      by_cases hp : (a.isPub && a.isAsync) = true
      · rw [if_pos hp, List.find?_cons_of_neg _ (by simp [hane])]
        exact ihr
      · rw [if_neg hp]
        exact ihr

/-- A method that is not both public and async is never found by dispatch,
whatever name collision discipline: with distinct names its name misses the
registered list entirely. -/
theorem find_not_registered (items : List MethodModel) (m : MethodModel)
    (hm : m ∈ items) (hnot : ¬(m.isPub = true ∧ m.isAsync = true))
    (hdist : items.Pairwise (fun a b => a.name ≠ b.name)) :
    (registeredMethods items).find? (fun x => x.name == m.name) = none := by
  rw [List.find?_eq_none]
  intro x hx
  rcases List.mem_filter.mp hx with ⟨hxmem, hxp⟩
  intro hname
  have hxm : x ≠ m := by
    intro h
    subst h
    exact hnot (by simpa using hxp)
  have : x.name = m.name := by simpa using hname
  exact (hdist.forall (fun _ _ h => Ne.symm h)) hxmem hm hxm this

/-! ## The claims -/

/-- C1: for every method name and every input string the dispatcher's JSON
parser rejects, `dispatch` returns the JSON-encoded string
`Failed to parse JSON: <reason>`, independently of the registry — in
particular the reply is never an `Unknown method` reply, even for an
unregistered name: parsing (step 1) precedes registry lookup (step 2). -/
theorem claim_C1_parse_error_precedes_lookup (items : List MethodModel)
    (m s e : String) (h : Json.parse s = .error e) :
    dispatch items m s = jsonEncodeStr ("Failed to parse JSON: " ++ e) ∧
    ∀ u : String, dispatch items m s ≠ jsonEncodeStr ("Unknown method: " ++ u) := by
  have hd : dispatch items m s = jsonEncodeStr ("Failed to parse JSON: " ++ e) := by
    simp [dispatch, h]
  refine ⟨hd, fun u => ?_⟩
  rw [hd]
  exact parseErr_ne_unknown e u

/-- Witness for C1 at the crate's own invalid-JSON test input. -/
theorem claim_C1_witness :
    dispatch testActorItems "missing" "\x7binvalid"
      = jsonEncodeStr ("Failed to parse JSON: " ++ "key must be a string") :=
  (claim_C1_parse_error_precedes_lookup testActorItems "missing" "\x7binvalid"
    "key must be a string" (by rfl)).1

/-- C2: for every registry, method name and input string, `dispatch` returns
normally with a string that is the serialization of some JSON value — hence
always valid JSON text, across all four handled failure kinds and success. -/
theorem claim_C2_reply_always_valid_json (items : List MethodModel) (m s : String) :
    ∃ j, dispatch items m s = Json.serialize j ∧
      Json.parse (dispatch items m s) = .ok j := by
  obtain ⟨j, hj⟩ := dispatch_serialize items m s
  refine ⟨j, hj, ?_⟩
  rw [hj]
  exact Json.parse_serialize j

/-- C3: every POST request whose body reads fully as UTF-8 gets status 200
with `Content-Type: application/json` and `Access-Control-Allow-Origin: *`,
and its body is exactly the dispatcher's return for the path with the
leading slashes stripped and the body passed verbatim. -/
theorem claim_C3_post_transparent (items : List MethodModel) (p s : String) :
    handleHttpRequest (dispatch items) { method := "POST", path := p, body := .ok s }
      = { status := 200,
          headers := [("Content-Type", "application/json"),
                      ("Access-Control-Allow-Origin", "*"),
                      ("Access-Control-Allow-Methods", "POST, OPTIONS"),
                      ("Access-Control-Allow-Headers", "Content-Type")],
          body := dispatch items (stripLeadingSlashes p) s } := by
  rfl

/-- C4: dispatching the name of an impl method that is not both public and
async behaves identically to dispatching against an empty registry (an
unregistered name), for every payload: the method is never registered and
its body never invoked. -/
theorem claim_C4_not_pub_async_unreachable (items : List MethodModel)
    (m : MethodModel) (hm : m ∈ items)
    (hnot : ¬(m.isPub = true ∧ m.isAsync = true))
    (hdist : items.Pairwise (fun a b => a.name ≠ b.name)) (s : String) :
    dispatch items m.name s = dispatch [] m.name s ∧
    (∀ j, Json.parse s = .ok j →
      dispatch items m.name s = jsonEncodeStr ("Unknown method: " ++ m.name)) := by
  constructor
  · rcases hp : Json.parse s with e | v
    · simp [dispatch, hp]
    · simp only [dispatch, hp]
      unfold dispatchParsed
      rw [find_not_registered items m hm hnot hdist]
      rfl
  · intro j hp
    simp only [dispatch, hp]
    unfold dispatchParsed
    rw [find_not_registered items m hm hnot hdist]

/-- Witness for C4 at the crate's own `private_method` test. -/
theorem claim_C4_witness :
    dispatch testActorItems "private_method" "\x7b\x7d"
      = dispatch [] "private_method" "\x7b\x7d" :=
  (claim_C4_not_pub_async_unreachable testActorItems privateMethod
    (List.Mem.tail _ (List.Mem.tail _ (List.Mem.tail _ (List.Mem.tail _ (List.Mem.head _)))))
    (by simp [privateMethod]) (by decide) "\x7b\x7d").1

/-- C5: for every registered zero-parameter method, `dispatch(m, "{}")`
deserializes the empty object into the empty message struct, invokes the
method and returns the serialization outcome of its result — it is never an
`Unknown method` or parameter-deserialization reply. -/
theorem claim_C5_zero_params_accept_empty_object (items : List MethodModel)
    (m : MethodModel) (run : Except String Json) (hm : m ∈ items)
    (hpub : m.isPub = true) (hasync : m.isAsync = true)
    (hspec : m.spec = .noParams run)
    (hdist : items.Pairwise (fun a b => a.name ≠ b.name)) :
    dispatch items m.name "\x7b\x7d" = serializeOutcome m.name run := by
  have hparse : Json.parse "\x7b\x7d" = .ok (.obj []) := by rfl
  simp [dispatch, hparse, dispatchParsed,
    find_registered items m hm hpub hasync hdist, armExec, hspec, emptyStructFromValue]

/-- Witness for C5 at the crate's own `no_params` test. -/
theorem claim_C5_witness :
    dispatch testActorItems "no_params" "\x7b\x7d"
      = serializeOutcome "no_params" (.ok (.str "No parameters needed")) :=
  claim_C5_zero_params_accept_empty_object testActorItems noParamsMethod
    (.ok (.str "No parameters needed"))
    (List.Mem.tail _ (List.Mem.tail _ (List.Mem.tail _ (List.Mem.head _))))
    rfl rfl rfl (by decide)

/-- C6 counterexample: on the frame `{}` (valid JSON, no `method`, no
`params`) the adapter replies with the error object whose text reads
`Expected {"method": "method_name", "params": {...}}` — not the claimed
`Expected {"method": ..., "params": {...}}`. -/
theorem claim_C6_counterexample :
    wsHandleText (dispatch []) "\x7b\x7d" = wsInvalidFormatReply ∧
    wsHandleText (dispatch []) "\x7b\x7d"
      ≠ Json.serialize (.obj [("error",
          .str "Invalid message format. Expected \x7b\"method\": ..., \"params\": \x7b...\x7d\x7d")]) := by
  constructor
  · rfl
  · decide

/-- C6 (amended): when an inbound text frame parses as JSON but lacks a
string `method` field or a `params` field, the adapter does not call
dispatch and replies with exactly the JSON object whose `error` text is
`Invalid message format. Expected {"method": "method_name", "params":
{...}}`. -/
theorem claim_C6_invalid_envelope_reply (d : String → String → String)
    (t : String) (j : Json) (hparse : Json.parse t = .ok j)
    (hmiss : ¬∃ m p, (getField j "method").bind asStr = some m ∧
      getField j "params" = some p) :
    wsHandleText d t = wsInvalidFormatReply := by
  rcases hM : (getField j "method").bind asStr with _ | m
  · rcases hP : getField j "params" with _ | p
    · simp [wsHandleText, hparse, hM, hP]
    · simp [wsHandleText, hparse, hM, hP]
  · rcases hP : getField j "params" with _ | p
    · simp [wsHandleText, hparse, hM, hP]
    · exact absurd ⟨m, p, hM, hP⟩ hmiss

/-- Witness for C6 (amended) at the empty-object frame. -/
theorem claim_C6_witness :
    wsHandleText (dispatch []) "\x7b\x7d" = wsInvalidFormatReply :=
  claim_C6_invalid_envelope_reply (dispatch []) "\x7b\x7d" (.obj [])
    (by rfl) (by simp [getField])

/-- C7 counterexample: an OPTIONS request whose body is not valid UTF-8 is
answered 400, not 200 — the body is read before the verb is examined. -/
theorem claim_C7_counterexample :
    (handleHttpRequest (dispatch [])
      { method := "OPTIONS", path := "/add", body := .invalidUtf8 }).status ≠ 200 := by
  decide

/-- C7 (amended): every OPTIONS request whose body reads fully as UTF-8 gets,
regardless of path, status 200, the CORS preflight headers, and an empty
body. -/
theorem claim_C7_options_preflight (items : List MethodModel) (p s : String) :
    handleHttpRequest (dispatch items) { method := "OPTIONS", path := p, body := .ok s }
      = { status := 200,
          headers := [("Access-Control-Allow-Origin", "*"),
                      ("Access-Control-Allow-Methods", "POST, OPTIONS"),
                      ("Access-Control-Allow-Headers", "Content-Type"),
                      ("Content-Length", "0")],
          body := "" } := by
  rfl

/-- C8 counterexample: with a key file holding zero PKCS8 keys, the HTTPS
startup logs `Failed to load TLS configuration: No private key found` and
the spawned server task returns — the process is not stopped. -/
theorem claim_C8_counterexample :
    startHttpServerWithTls noKeyEnv (.ok ())
        = .logAndReturn ("Failed to load TLS configuration: " ++ "No private key found") ∧
      stopsProcess (startHttpServerWithTls noKeyEnv (.ok ())) = false := by
  exact ⟨rfl, rfl⟩

/-- C8 (amended): a TLS-identity load failure (file error, zero PKCS8 keys —
reported as `No private key found` — or certificate error) is fatal to the
listener: the error is reported at startup, the accept loop is never
entered, and the failure is never handled per-connection; the server task
returns (the process itself is not aborted). -/
theorem claim_C8_tls_failure_fatal_to_listener :
    (∀ (env : TlsEnv) (bindResult : Except String Unit) (e : String),
      loadServerConfig env = .error e →
      startHttpServerWithTls env bindResult
          = .logAndReturn ("Failed to load TLS configuration: " ++ e) ∧
        reachesAcceptLoop (startHttpServerWithTls env bindResult) = false) ∧
    (∀ (env : TlsEnv) (cc : List Nat), env.certData = .ok () → env.certsParsed = .ok cc →
      env.keyData = .ok () → env.keysParsed = .ok [] →
      loadServerConfig env = .error "No private key found") := by
  constructor
  · intro env bindResult e h
    constructor
    · simp [startHttpServerWithTls, h]
    · simp [startHttpServerWithTls, h, reachesAcceptLoop]
  · intro env cc h1 h2 h3 h4
    unfold loadServerConfig
    rw [h1, h2, h3, h4]
    rfl

/-- Witness for C8 (amended) at the zero-key environment. -/
theorem claim_C8_witness :
    startHttpServerWithTls noKeyEnv (.ok ())
      = .logAndReturn ("Failed to load TLS configuration: " ++ "No private key found") :=
  (claim_C8_tls_failure_fatal_to_listener.1 noKeyEnv (.ok ()) "No private key found"
    (claim_C8_tls_failure_fatal_to_listener.2 noKeyEnv [1] rfl rfl rfl rfl)).1

def isSendEvent : WsEvent → Bool
  | .send _ => true
  | _ => false

def isTextFrame : WsFrame → Bool
  | .text _ => true
  | _ => false

def notCloseFrame : WsFrame → Bool
  | .close => false
  | _ => true

/-- C9: within one WebSocket connection the receive loop is strictly
sequential: on a run of text frames the trace alternates
receive/reply — the reply to frame `i` is emitted before frame `i + 1` is
taken off the socket, in arrival order — and on any frame sequence exactly
one reply is produced per text frame received before a close. -/
theorem claim_C9_strictly_sequential (d : String → String → String) :
    (∀ ts : List String,
      wsSessionTrace d (ts.map WsFrame.text)
        = ts.flatMap (fun t => [.recv (.text t), .send (wsHandleText d t)])) ∧
    (∀ frames : List WsFrame,
      (wsSessionTrace d frames).countP isSendEvent
        = (frames.takeWhile notCloseFrame).countP isTextFrame) := by
  constructor
  · intro ts
    induction ts with
    | nil => rfl
    | cons t ts ih =>
      simp only [List.map_cons, wsSessionTrace, ih, List.flatMap_cons]
      rfl
  · intro frames
    induction frames with
    | nil => rfl
    | cons f frames ih =>
      cases f with
      | text t =>
        simp [wsSessionTrace, List.takeWhile_cons, notCloseFrame, isSendEvent,
          isTextFrame, List.countP_cons, ih]
      | close =>
        simp [wsSessionTrace, List.takeWhile_cons, notCloseFrame, isSendEvent,
          isTextFrame, List.countP_cons]
      | other =>
        simp [wsSessionTrace, List.takeWhile_cons, notCloseFrame, isSendEvent,
          isTextFrame, List.countP_cons, ih]

/-- C10: a frame that passes envelope validation forwards the serialization
of the already-parsed `params` value, and since parsing inverts
serialization (`from_str` after `to_string` is the identity), the reply is
computed by the post-parse dispatcher: the dispatcher's
`Failed to parse JSON` branch is unreachable on the WebSocket path. -/
theorem claim_C10_ws_parse_branch_unreachable (items : List MethodModel)
    (t : String) (j : Json) (m : String) (p : Json)
    (hparse : Json.parse t = .ok j)
    (hm : (getField j "method").bind asStr = some m)
    (hp : getField j "params" = some p) :
    wsHandleText (dispatch items) t = dispatchParsed items m p ∧
    Json.parse (Json.serialize p) = .ok p := by
  constructor
  · simp [wsHandleText, hparse, hm, hp, dispatch, Json.parse_serialize p]
  · exact Json.parse_serialize p

/-- Witness for C10 at a concrete envelope frame. -/
theorem claim_C10_witness :
    wsHandleText (dispatch []) "\x7b\"method\":\"m\",\"params\":\x7b\x7d\x7d"
        = dispatchParsed [] "m" (.obj []) ∧
      Json.parse (Json.serialize (.obj [])) = .ok (.obj []) :=
  claim_C10_ws_parse_branch_unreachable [] "\x7b\"method\":\"m\",\"params\":\x7b\x7d\x7d"
    (.obj [("method", .str "m"), ("params", .obj [])]) "m" (.obj [])
    (by rfl) (by rfl) (by rfl)
